import Mathlib

/-!
Shallow embedding of the metrics aggregation core of the unraid-companion
repository (`src/ws-server/server.mjs` and `src/src/preload.js`), together
with theorems checking the natural-language specification against it.

Modelling conventions:
* JavaScript numbers are modelled as rationals (`Rat`); every claim settled
  here depends only on discrete branching and on the exact arithmetic
  formulas, not on binary floating-point rounding.
* A JavaScript value that may be `undefined`/`null` is an `Option`; a string
  field is falsy exactly when it is empty.
* Stateful module-level variables (`lastNet`, `lastNetSample`, `vmsCache`,
  `containersCache`) are passed explicitly: each collector takes the previous
  state and returns the new state together with its result.
* The output of an external command is a value of type `Except Unit String`
  (captured stdout, or a thrown execution error); asynchronous code is
  modelled by its data flow.
-/

/-- JS helper `clamp`/`clampNumber` from the sources: a non-finite value
(modelled as `none`) yields `min`; otherwise `Math.min(Math.max(v, min), max)`. -/
def clampJs (v : Option Rat) (lo hi : Rat) : Rat :=
  match v with
  | none => lo
  | some x => min (max x lo) hi

/-- JS `Math.round`: round half toward positive infinity. -/
def mathRound (x : Rat) : Int := Int.floor (x + 1/2)

/-- JS helper `round(v)` from the sources: two-decimal rounding (the
non-finite guard returning 0 cannot fire for rational inputs). -/
def roundJs2 (x : Rat) : Rat := ((mathRound (x * 100) : Int) : Rat) / 100

/-- Decimal value of a list of digit characters (most significant first). -/
def digitsToNat (cs : List Char) : Nat :=
  cs.foldl (fun n c => n * 10 + (c.toNat - '0'.toNat)) 0

/-- Boolean prefix test on character lists. -/
def isPrefixChars : List Char → List Char → Bool
  | [], _ => true
  | _ :: _, [] => false
  | a :: as, b :: bs => a = b && isPrefixChars as bs

/-- Boolean contiguous-substring test on character lists. -/
def isInfixChars (needle : List Char) : List Char → Bool
  | [] => isPrefixChars needle []
  | hay :: rest => isPrefixChars needle (hay :: rest) || isInfixChars needle rest

/-- JS `haystack.includes(needle)`. -/
def strIncludes (hay needle : String) : Bool :=
  isInfixChars needle.data hay.data

/-- JS `String.prototype.trim` on a character list (the whitespace occurring
in this program's data is ASCII). -/
def trimChars (cs : List Char) : List Char :=
  ((cs.dropWhile Char.isWhitespace).reverse.dropWhile Char.isWhitespace).reverse

/-- JS `s.trim()`. -/
def jsTrim (s : String) : String := String.mk (trimChars s.data)

/-- JS `Number(string)` restricted to the decimal forms that occur in this
program's inputs (optional sign, digits, optional decimal fraction); the
empty or all-whitespace string is 0; anything else is NaN (`none`). -/
def jsNumber (s : String) : Option Rat :=
  let t := jsTrim s
  if t = "" then some 0
  else
    let signedBody : Rat × List Char :=
      match t.data with
      | '-' :: r => (-1, r)
      | '+' :: r => (1, r)
      | r => (1, r)
    let sgn := signedBody.1
    let body := signedBody.2
    let ip := body.takeWhile (fun c => c ≠ '.')
    let rest := body.dropWhile (fun c => c ≠ '.')
    if ip.all Char.isDigit then
      match rest with
      | [] => if ip.isEmpty then none else some (sgn * (digitsToNat ip : Rat))
      | _ :: frac =>
        if frac.all Char.isDigit && !(ip.isEmpty && frac.isEmpty) then
          some (sgn * ((digitsToNat ip : Rat) +
            (digitsToNat frac : Rat) / ((10 ^ frac.length : Nat) : Rat)))
        else none
    else none

/-- JS `Number(s) || 0`: NaN collapses to 0, finite values pass through. -/
def jsNumberOr0 (s : String) : Rat := (jsNumber s).getD 0

/-- Maximal non-whitespace runs of a character list, accumulator-based so the
kernel can evaluate it. -/
def wsTokensAux : List Char → List Char → List (List Char)
  | [], acc => if acc.isEmpty then [] else [acc.reverse]
  | c :: rest, acc =>
    if Char.isWhitespace c then
      if acc.isEmpty then wsTokensAux rest []
      else acc.reverse :: wsTokensAux rest []
    else wsTokensAux rest (c :: acc)

/-- JS `str.split(/\s+/)` as applied to already-trimmed strings in the
sources: the empty string yields one empty token, otherwise the maximal runs
of non-whitespace characters. -/
def splitWsJs (s : String) : List String :=
  if s = "" then [""]
  else (wsTokensAux s.data []).map String.mk

/-- JS `str.split(',')` (plain separator, empty segments kept). -/
def splitCommaAux : List Char → List Char → List (List Char)
  | [], acc => [acc.reverse]
  | ',' :: rest, acc => acc.reverse :: splitCommaAux rest []
  | c :: rest, acc => splitCommaAux rest (c :: acc)

/-- JS `str.split(',')` on strings. -/
def splitCommaJs (s : String) : List String :=
  (splitCommaAux s.data []).map String.mk

/-- JS `s.toLowerCase()` (ASCII). -/
def lowerJs (s : String) : String := String.mk (s.data.map Char.toLower)

/-- JS `s.endsWith(t)`. -/
def endsWithJs (s t : String) : Bool :=
  isPrefixChars t.data.reverse s.data.reverse

/-- JS `s.slice(0, -1)`: drop the final character. -/
def dropLastJs (s : String) : String :=
  String.mk (s.data.take (s.data.length - 1))

/-- JS `s.startsWith(t)`. -/
def startsWithJs (s t : String) : Bool :=
  isPrefixChars t.data s.data

/-- Keeps the value of an optional JS string field only when it is truthy
(present and non-empty). -/
def jsTruthy : Option String → Option String
  | some s => if s = "" then none else some s
  | none => none

/- ---------------- CPU sampling (both sources, identical logic) ---------------- -/

/-- A parsed `/proc/stat` aggregate cpu line: idle and total tick counts. -/
structure CpuSample where
  idle : Rat
  total : Rat
deriving DecidableEq, Repr

/-- `parseCpuLine` from both sources: split the stat line on whitespace, drop
the leading `cpu` label, convert the fields with `Number`; idle is the 4th
plus 5th value (each `|| 0`), total the sum of the finite values. -/
def parseCpuLine (line : String) : CpuSample :=
  let values := ((splitWsJs (jsTrim line)).drop 1).map jsNumber
  { idle := (values.getD 3 none).getD 0 + (values.getD 4 none).getD 0,
    total := values.foldl (fun sum v => sum + v.getD 0) 0 }

/-- `collectCpuPercent` from both sources, as a pure function of the two
parsed samples (the two reads separated by the 400 ms delay): usage is
`1 - idleDelta/totalDelta` (0 when `totalDelta` is 0), scaled to percent and
clamped to `[0, 100]`. -/
def collectCpuPercent (first second : CpuSample) : Rat :=
  let idleDelta := second.idle - first.idle
  let totalDelta := second.total - first.total
  let usage : Rat := if totalDelta = 0 then 0 else (1 - idleDelta / totalDelta) * 100
  clampJs (some usage) 0 100

/- ---------------- VM inventory cache (server.mjs) ---------------- -/

/-- A virtual machine row parsed from the `virsh list --all` output. -/
structure Vm where
  name : String
  state : String
  running : Bool
deriving DecidableEq, Repr

/-- The module-level `vmsCache` of server.mjs. -/
structure VmsCache where
  ts : Int
  value : List Vm
deriving DecidableEq, Repr

/-- `VM_CACHE_MS` from server.mjs: the 60 s staleness threshold. -/
def VM_CACHE_MS : Int := 60000

/-- `getVmsSnapshot` from server.mjs as a function of the previous cache, the
current time and the outcome the poll would have: returns the new cache, the
returned list, and whether `collectVmStats` was invoked.  On poll failure the
code returns `vmsCache.value || []`; the cached value is always an array and
arrays are truthy in JS, so that expression is the cached value itself. -/
def getVmsSnapshot (cache : VmsCache) (now : Int) (poll : Except Unit (List Vm)) :
    VmsCache × List Vm × Bool :=
  if now - cache.ts < VM_CACHE_MS then
    (cache, cache.value, false)
  else
    match poll with
    | .ok vms => ({ ts := now, value := vms }, vms, true)
    | .error _ => (cache, cache.value, true)

/- ---------------- Array usage (server.mjs) ---------------- -/

/-- The array-usage record returned by `collectArrayUsage`. -/
structure ArrayUsage where
  totalTb : Rat
  usedTb : Rat
  usedPercent : Rat
deriving DecidableEq, Repr

/-- `collectArrayUsage` from server.mjs: parse the last `df -B1` line; fewer
than five whitespace-separated fields yield the zero record; a thrown command
error is caught and yields null (`none`). -/
def collectArrayUsage (cmd : Except Unit String) : Option ArrayUsage :=
  match cmd with
  | .error _ => none
  | .ok stdout =>
    let parts := splitWsJs (jsTrim stdout)
    if parts.length < 5 then some ⟨0, 0, 0⟩
    else
      let totalBytes := jsNumberOr0 (parts.getD 1 "")
      let usedBytes := jsNumberOr0 (parts.getD 2 "")
      let fallbackPercent : Rat := if totalBytes ≠ 0 then usedBytes / totalBytes * 100 else 0
      let p4 := parts.getD 4 ""
      let usedPercent : Option Rat :=
        if p4 != "" && endsWithJs p4 "%" then jsNumber (dropLastJs p4)
        else some fallbackPercent
      some ⟨roundJs2 (if totalBytes ≠ 0 then totalBytes / 1024 / 1024 / 1024 / 1024 else 0),
            roundJs2 (if usedBytes ≠ 0 then usedBytes / 1024 / 1024 / 1024 / 1024 else 0),
            clampJs usedPercent 0 100⟩

/- ---------------- Network rate sampling (both sources) ---------------- -/

/-- The stored previous network sample (`lastNet` in server.mjs,
`lastNetSample` in preload.js): interface name, byte counters, timestamp in
milliseconds. -/
structure NetSample where
  iface : String
  rxBytes : Int
  txBytes : Int
  ts : Int
deriving DecidableEq, Repr

namespace WsServer

/-- The network section returned by server.mjs (`interface`, `rxMbps`,
`txMbps` plus the duplicated `rxRateMbps`/`txRateMbps` aliases). -/
structure NetResult where
  iface : String
  rxMbps : Option Rat
  txMbps : Option Rat
  rxRateMbps : Option Rat
  txRateMbps : Option Rat
deriving DecidableEq, Repr

/-- `collectNetworkStats` from server.mjs, as a function of the previous
module-level `lastNet` sample, the configured interface, the freshly read
byte counters and the current time: returns the new `lastNet` (always the
fresh reading) and the result object.  Rates are computed only when a prior
sample for the same interface exists and the elapsed time is positive, and
the byte deltas are not clamped. -/
def collectNetworkStats (lastNet : Option NetSample) (iface : String)
    (rxBytes txBytes now : Int) : Option NetSample × NetResult :=
  let rates : Option Rat × Option Rat :=
    match lastNet with
    | some l =>
      if l.iface = iface then
        let seconds : Rat := ((now - l.ts : Int) : Rat) / 1000
        if 0 < seconds then
          (some ((((rxBytes - l.rxBytes : Int) : Rat) * 8) / seconds / 1000000),
           some ((((txBytes - l.txBytes : Int) : Rat) * 8) / seconds / 1000000))
        else (none, none)
      else (none, none)
    | none => (none, none)
  (some ⟨iface, rxBytes, txBytes, now⟩, ⟨iface, rates.1, rates.2, rates.1, rates.2⟩)

end WsServer

namespace Preload

/-- The network section returned by preload.js (`interface`, raw byte
counters and the two rates). -/
structure NetResult where
  iface : String
  rxBytes : Int
  txBytes : Int
  rxRateMbps : Option Rat
  txRateMbps : Option Rat
deriving DecidableEq, Repr

/-- `collectNetworkStats` from preload.js: elapsed milliseconds are clamped
to at least 1, byte deltas are clamped to at least 0, and the stored
`lastNetSample` is always replaced by the fresh reading. -/
def collectNetworkStats (lastNetSample : Option NetSample) (iface : String)
    (rxBytes txBytes now : Int) : Option NetSample × NetResult :=
  let rates : Option Rat × Option Rat :=
    match lastNetSample with
    | some l =>
      if l.iface = iface then
        let deltaMs : Int := max (now - l.ts) 1
        let seconds : Rat := (deltaMs : Rat) / 1000
        let rxDelta : Int := max (rxBytes - l.rxBytes) 0
        let txDelta : Int := max (txBytes - l.txBytes) 0
        if 0 < seconds then
          (some (((rxDelta : Rat) * 8) / seconds / 1000000),
           some (((txDelta : Rat) * 8) / seconds / 1000000))
        else (none, none)
      else (none, none)
    | none => (none, none)
  (some ⟨iface, rxBytes, txBytes, now⟩, ⟨iface, rxBytes, txBytes, rates.1, rates.2⟩)

end Preload

/- ---------------- Docker event handling (server.mjs) ---------------- -/

/-- A docker event record as consumed by `handleDockerEventLine` after JSON
parsing; each field is `none` when absent.  `actorId` stands for the value of
the JS expression `evt.Actor && evt.Actor.ID` (its truthy string, if any). -/
structure DockerEvent where
  type' : Option String
  id' : Option String
  bigId : Option String
  actorId : Option String
  status' : Option String
  action' : Option String
deriving DecidableEq, Repr

/-- What `handleDockerEventLine` decides to do with an event: re-resolve one
container (`refreshSingleContainer id`), drop one from the cache
(`removeContainerFromCache id`), or nothing. -/
inductive EventOutcome where
  | refreshOne (id : String)
  | removeId (id : String)
  | ignored
deriving DecidableEq, Repr

/-- `handleDockerEventLine` from server.mjs (after JSON parsing), modelled as
the dispatch decision it takes: events whose `Type` is present, non-empty and
different from `container` are dropped; the id is `evt.id || evt.ID ||
(evt.Actor && evt.Actor.ID)` and the action `evt.status || evt.Action || ''`
lowercased; a falsy id or action means no-op; otherwise the lowercased action
is matched by substring against the refresh keywords and then the removal
keywords. -/
def handleDockerEventLine (evt : DockerEvent) : EventOutcome :=
  let blocked : Bool :=
    match evt.type' with
    | some t => t != "" && t != "container"
    | none => false
  if blocked then .ignored
  else
    match jsTruthy evt.id' <|> jsTruthy evt.bigId <|> jsTruthy evt.actorId with
    | none => .ignored
    | some id =>
      match jsTruthy evt.status' <|> jsTruthy evt.action' with
      | none => .ignored
      | some raw =>
        let action := lowerJs raw
        if strIncludes action "create" || strIncludes action "start" ||
           strIncludes action "restart" || strIncludes action "rename" ||
           strIncludes action "unpause" || strIncludes action "pause" ||
           strIncludes action "die" || strIncludes action "stop" then
          .refreshOne id
        else if strIncludes action "destroy" || strIncludes action "remove" then
          .removeId id
        else .ignored

/- ---------------- Docker port parsing (both sources) ---------------- -/

/-- One entry of the parsed `Ports` field: either an unparsable segment kept
verbatim for display, or a structured mapping with its rebuilt display
string. -/
inductive PortMapping where
  | plain (display : String)
  | mapped (hostIp hostPort containerPort protocol display : String)
deriving DecidableEq, Repr

/-- JS `port.hostPort`: absent (`undefined`) on display-only entries. -/
def PortMapping.hostPortField : PortMapping → Option String
  | .plain _ => none
  | .mapped _ hp _ _ _ => some hp

/-- JS `port.containerPort`: absent (`undefined`) on display-only entries. -/
def PortMapping.containerPortField : PortMapping → Option String
  | .plain _ => none
  | .mapped _ _ cp _ _ => some cp

/-- The captures of a successful match of the port regex
`([^:]+)?:?(\d+)->(\d+)(?:\/([a-z]+))?` (flag `i`). -/
structure PortGroups where
  hostGroup : Option String
  hostPort : String
  containerPort : String
  protocol : Option String
deriving DecidableEq, Repr

/-- The optional colon `:?` of the port regex: drop a leading colon when
present (the greedy branch that keeps it would make the following `\d+`
fail). -/
def stripColon (cs : List Char) : List Char :=
  match cs with
  | c :: rest => if c = ':' then rest else c :: rest
  | [] => []

/-- The part of the port regex after the optional host group: the optional
colon, then the first digit capture, the literal arrow, the second digit
capture and the optional protocol capture.  Only a maximal digit run can be
followed by `->` (shorter runs leave a digit, not `-`, as the next
character), so the backtracking inside `(\d+)` collapses to maximal runs. -/
def matchPortTail (cs : List Char) : Option (String × String × Option String) :=
  let cs' := stripColon cs
  let d1 := cs'.takeWhile Char.isDigit
  let cs1 := cs'.dropWhile Char.isDigit
  if d1.isEmpty then none
  else
    match cs1 with
    | '-' :: '>' :: cs2 =>
      let d2 := cs2.takeWhile Char.isDigit
      let cs3 := cs2.dropWhile Char.isDigit
      if d2.isEmpty then none
      else
        let proto : Option String :=
          match cs3 with
          | '/' :: cs4 =>
            let ls := cs4.takeWhile fun c => ('a' ≤ c && c ≤ 'z') || ('A' ≤ c && c ≤ 'Z')
            if ls.isEmpty then none else some (String.mk ls)
          | _ => none
        some (String.mk d1, String.mk d2, proto)
    | _ => none

/-- The optional greedy host group `([^:]+)?` tried at lengths `L, …, 1`
(the backtracking order of a greedy `+`), each followed by the rest of the
pattern. -/
def tryHostLens (cs : List Char) : Nat → Option PortGroups
  | 0 => none
  | L + 1 =>
    match matchPortTail (cs.drop (L + 1)) with
    | some (hp, cp, proto) => some ⟨some (String.mk (cs.take (L + 1))), hp, cp, proto⟩
    | none => tryHostLens cs L

/-- The whole pattern attempted at one start position: host group present
(longest first, bounded by the maximal colon-free run), then absent. -/
def tryMatchAt (cs : List Char) : Option PortGroups :=
  let run := (cs.takeWhile fun c => c ≠ ':').length
  match tryHostLens cs run with
  | some g => some g
  | none =>
    match matchPortTail cs with
    | some (hp, cp, proto) => some ⟨none, hp, cp, proto⟩
    | none => none

/-- JS `segment.match(re)`: the leftmost match of the port regex. -/
def findPortMatch : List Char → Option PortGroups
  | [] => none
  | c :: rest =>
    match tryMatchAt (c :: rest) with
    | some g => some g
    | none => findPortMatch rest

/-- The per-segment body of `parseDockerPorts` (identical in both sources):
an unmatched segment is kept as a display-only entry; otherwise a host group
without a dot is replaced by `0.0.0.0` and a missing protocol defaults to
`tcp`. -/
def parsePortSegment (segment : String) : PortMapping :=
  match findPortMatch segment.data with
  | none => .plain segment
  | some g =>
    let hostIp :=
      match g.hostGroup with
      | some h => if h.data.contains '.' then h else "0.0.0.0"
      | none => "0.0.0.0"
    let protocol := g.protocol.getD "tcp"
    .mapped hostIp g.hostPort g.containerPort protocol
      (g.hostPort ++ "->" ++ g.containerPort ++ "/" ++ protocol)

/-- `parseDockerPorts` from both sources: an empty (falsy) field gives the
empty list, otherwise the comma-separated segments are trimmed, empty ones
dropped, and each remaining one parsed. -/
def parseDockerPorts (rawPorts : String) : List PortMapping :=
  if rawPorts = "" then []
  else
    (((splitCommaJs rawPorts).map jsTrim).filter fun s => s ≠ "").map parsePortSegment

/- ---------------- Container construction (server.mjs) ---------------- -/

/-- Configuration and platform context for container construction:
`unraidHost` is the optional `UNRAID_HOST` environment value and `urlOk`
models the success of the WHATWG `new URL(candidate)` syntactic validation,
a platform facility outside this repository: `true` means the candidate
parses, `false` that the constructor throws. -/
structure DockerCfg where
  unraidHost : Option String
  urlOk : String → Bool

/-- Insert-or-update on an association list: replace the first binding of the
key in place, else append (JS object property assignment / `Map.set`
ordering). -/
def assocSet {α : Type} (k : String) (v : α) : List (String × α) → List (String × α)
  | [] => [(k, v)]
  | (k', v') :: rest => if k' = k then (k, v) :: rest else (k', v') :: assocSet k v rest

/-- `parseDockerLabels` from both sources: comma-separated `key=value` pairs,
pairs without `=` or with empty trimmed key or value skipped. -/
def parseDockerLabels (rawLabels : String) : List (String × String) :=
  if rawLabels = "" then []
  else
    (splitCommaJs rawLabels).foldl
      (fun acc pair =>
        let trimmedPair := jsTrim pair
        if trimmedPair = "" then acc
        else
          let kcs := trimmedPair.data.takeWhile fun c => c ≠ '='
          if kcs.length = trimmedPair.data.length then acc
          else
            let key := jsTrim (String.mk kcs)
            let value := jsTrim (String.mk (trimmedPair.data.drop (kcs.length + 1)))
            if key ≠ "" ∧ value ≠ "" then assocSet key value acc else acc)
      []

/-- JS property read `labels[key]` on the parsed label object. -/
def labelsGet (labels : List (String × String)) (k : String) : Option String :=
  (labels.find? fun p => decide (p.1 = k)).map Prod.snd

/-- The part of a `docker inspect` entry consumed by the code: the direct
`NetworkSettings.IPAddress` and the `IPAddress` values of the attached
networks in `Object.values` order, the empty string standing for an absent or
empty field.  A missing `NetworkSettings` object behaves exactly like missing
details and is folded into the `none` case of `Option InspectDetails`. -/
structure InspectDetails where
  ipAddress : String
  networks : Option (List String)

/-- `resolveContainerIp` from server.mjs. -/
def resolveContainerIp : Option InspectDetails → Option String
  | none => none
  | some d =>
    if d.ipAddress ≠ "" then some d.ipAddress
    else
      match d.networks with
      | none => none
      | some ips => ips.find? fun ip => ip != ""

/-- Canonical decimal rendering of a natural number (JS
`String(Number(digits))`), with fuel so the kernel can evaluate it. -/
def natDigitsAux : Nat → Nat → List Char
  | 0, _ => []
  | fuel + 1, n =>
    if n < 10 then [Char.ofNat (n + 48)]
    else natDigitsAux fuel (n / 10) ++ [Char.ofNat (n % 10 + 48)]

/-- Decimal digits of a natural number. -/
def natToChars (n : Nat) : List Char := natDigitsAux (n + 1) n

/-- Global case-insensitive replacement of the literal `[IP]` template
(`value.replace(/\[IP\]/gi, resolvedIp)`). -/
def replaceIpChars (ip : List Char) : List Char → List Char
  | '[' :: a :: b :: ']' :: rest =>
    if (a == 'i' || a == 'I') && (b == 'p' || b == 'P') then
      ip ++ replaceIpChars ip rest
    else '[' :: replaceIpChars ip (a :: b :: ']' :: rest)
  | c :: rest => c :: replaceIpChars ip rest
  | [] => []

/-- The replacement value for one `[PORT:n]` occurrence: the first mapping
whose container port equals `n` numerically, else the first whose host port
does, yields its host port; otherwise the number is re-emitted in canonical
decimal form. -/
def portTemplateValue (ports : List PortMapping) (ds : List Char) : List Char :=
  let n := digitsToNat ds
  let matched :=
    (ports.find? fun p => (p.containerPortField.map fun cp => digitsToNat cp.data) == some n) <|>
    (ports.find? fun p => (p.hostPortField.map fun hp => digitsToNat hp.data) == some n)
  match matched.bind PortMapping.hostPortField with
  | some hp => if hp = "" then natToChars n else hp.data
  | none => natToChars n

/-- Global case-insensitive replacement of `[PORT:n]` templates
(`value.replace(/\[PORT:(\d+)\]/gi, …)`), scanning left to right.  The fuel
argument equals the length of the scanned list, which one-character progress
per step can never exhaust; the fuel-zero fallback is unreachable. -/
def replacePortAux (ports : List PortMapping) : Nat → List Char → List Char
  | 0, cs => cs
  | fuel + 1, cs =>
    match cs with
    | '[' :: c1 :: c2 :: c3 :: c4 :: ':' :: rest =>
      if (c1.toLower == 'p') && (c2.toLower == 'o') &&
         (c3.toLower == 'r') && (c4.toLower == 't') then
        let ds := rest.takeWhile Char.isDigit
        match rest.dropWhile Char.isDigit with
        | ']' :: rest2 =>
          if ds.isEmpty then
            '[' :: replacePortAux ports fuel (c1 :: c2 :: c3 :: c4 :: ':' :: rest)
          else portTemplateValue ports ds ++ replacePortAux ports fuel rest2
        | _ => '[' :: replacePortAux ports fuel (c1 :: c2 :: c3 :: c4 :: ':' :: rest)
      else '[' :: replacePortAux ports fuel (c1 :: c2 :: c3 :: c4 :: ':' :: rest)
    | c :: rest => c :: replacePortAux ports fuel rest
    | [] => []

/-- `applyDockerTemplate` from server.mjs: a falsy value passes through;
otherwise `[IP]` is replaced by the container IP, the `UNRAID_HOST` fallback
or `localhost`, and then `[PORT:n]` templates are resolved against the parsed
port mappings. -/
def applyDockerTemplate (value : Option String) (ports : List PortMapping)
    (containerIp : Option String) (unraidHost : Option String) : Option String :=
  match value with
  | none => none
  | some v =>
    if v = "" then some v
    else
      let resolvedIp := (jsTruthy containerIp).getD ((jsTruthy unraidHost).getD "localhost")
      let step1 := replaceIpChars resolvedIp.data v.data
      some (String.mk (replacePortAux ports step1.length step1))

/-- `normalizeUrl` from server.mjs: absolute `http(s)://` URLs pass through
after validation, `//`-prefixed get `http:`, `/`-prefixed are joined to the
`UNRAID_HOST` fallback, bare names get `http://`; a candidate rejected by the
URL parser is discarded. -/
def normalizeUrl (cfg : DockerCfg) (url : Option String) : Option String :=
  match url with
  | none => none
  | some u =>
    if u = "" then none
    else
      let trimmed := jsTrim u
      if trimmed = "" then none
      else if startsWithJs (lowerJs trimmed) "http://" ||
              startsWithJs (lowerJs trimmed) "https://" then
        if cfg.urlOk trimmed then some trimmed else none
      else if startsWithJs trimmed "//" then
        let candidate := "http:" ++ trimmed
        if cfg.urlOk candidate then some candidate else none
      else if startsWithJs trimmed "/" then
        let candidate := "http://" ++ (jsTruthy cfg.unraidHost).getD "localhost" ++ trimmed
        if cfg.urlOk candidate then some candidate else none
      else
        let candidate := "http://" ++ trimmed
        if cfg.urlOk candidate then some candidate else none

/-- `deriveDockerUrl` from server.mjs: prefer the first published host port
(`https` iff 443) on the `UNRAID_HOST` fallback, else the first container
port on the container IP, else the bare container IP, else null. -/
def deriveDockerUrl (cfg : DockerCfg) (ports : List PortMapping)
    (containerIp : Option String) : Option String :=
  match ports with
  | [] =>
    match jsTruthy containerIp with
    | some ip => some ("http://" ++ ip)
    | none => none
  | _ =>
    match ports.find? fun p => (jsTruthy p.hostPortField).isSome with
    | some p =>
      let hp := (jsTruthy p.hostPortField).getD ""
      let scheme := if jsNumber hp == some 443 then "https" else "http"
      some (scheme ++ "://" ++ (jsTruthy cfg.unraidHost).getD "localhost" ++ ":" ++ hp)
    | none =>
      match jsTruthy containerIp with
      | some ip =>
        match ports.head?.bind (fun p => jsTruthy p.containerPortField) with
        | some cp =>
          let scheme := if jsNumber cp == some 443 then "https" else "http"
          some (scheme ++ "://" ++ ip ++ ":" ++ cp)
        | none => some ("http://" ++ ip)
      | none => none

/-- One parsed line of `docker ps -a --format json` as consumed by the
builder. -/
structure PsEntry where
  ID : String
  Names : String
  Image : String
  Status : String
  Ports : String
  Labels : String
deriving DecidableEq, Repr

/-- A container object of the inventory (the `metrics` field is always null
in the server path and is omitted). -/
structure Container where
  id : String
  name : String
  image : String
  status : String
  running : Bool
  ports : List PortMapping
  containerIp : Option String
  url : Option String
  icon : Option String
deriving DecidableEq, Repr

/-- `buildContainerFromPsAndInspect` from server.mjs. -/
def buildContainerFromPsAndInspect (cfg : DockerCfg) (entry : PsEntry)
    (details : Option InspectDetails) : Option Container :=
  if entry.ID = "" then none
  else
    let status := lowerJs entry.Status
    let running := startsWithJs status "up"
    let ports := parseDockerPorts entry.Ports
    let labels := parseDockerLabels entry.Labels
    let containerIp := resolveContainerIp details
    let explicitUrl :=
      applyDockerTemplate (labelsGet labels "net.unraid.docker.webui") ports containerIp cfg.unraidHost
    let explicitIcon :=
      applyDockerTemplate (labelsGet labels "net.unraid.docker.icon") ports containerIp cfg.unraidHost
    let url := normalizeUrl cfg explicitUrl <|> deriveDockerUrl cfg ports containerIp
    let icon := normalizeUrl cfg explicitIcon
    some { id := entry.ID, name := entry.Names, image := entry.Image,
           status := entry.Status, running := running, ports := ports,
           containerIp := containerIp, url := url, icon := icon }

/- ---------------- Container cache mutations (server.mjs) ---------------- -/

/-- The module-level `containersCache` of server.mjs: the list and the id
map (a JS `Map`, modelled as an insertion-ordered association list). -/
structure ContainersCache where
  initialised : Bool
  list : List Container
  byId : List (String × Container)
deriving DecidableEq, Repr

/-- `upsertContainerInCache` from server.mjs: replace the first list entry
with the same id (`findIndex`), else append; bind the id in the map whenever
it is truthy. -/
def upsertContainerInCache (cache : ContainersCache) (container : Container) :
    ContainersCache :=
  let list :=
    match cache.list.findIdx? (fun c => decide (c.id = container.id)) with
    | some i => cache.list.set i container
    | none => cache.list ++ [container]
  let byId :=
    if container.id ≠ "" then assocSet container.id container cache.byId else cache.byId
  { cache with list := list, byId := byId }

/-- `removeContainerFromCache` from server.mjs: a falsy id is a no-op, else
the id is dropped from the list and its binding deleted from the map. -/
def removeContainerFromCache (cache : ContainersCache) (id : String) :
    ContainersCache :=
  if id = "" then cache
  else
    { cache with
      list := cache.list.filter fun c => decide (c.id ≠ id),
      byId := cache.byId.filter fun p => decide (p.1 ≠ id) }

/-- One iteration of the container-building loop of
`fullContainersRefresh`: push the built object and bind its id. -/
def buildCacheStep (cfg : DockerCfg) (inspect : String → Option InspectDetails)
    (acc : List Container × List (String × Container)) (entry : PsEntry) :
    List Container × List (String × Container) :=
  match buildContainerFromPsAndInspect cfg entry (inspect entry.ID) with
  | none => acc
  | some obj =>
    (acc.1 ++ [obj], if obj.id ≠ "" then assocSet obj.id obj acc.2 else acc.2)

/-- `fullContainersRefresh` from server.mjs, as a function of the previous
cache, the parsed `docker ps -a` entries (`Except.error` models a thrown
command error, which only marks the old cache initialised) and the result of
the batch `docker inspect` keyed by id: builds the fresh list and id map in
one pass and swaps them in as a whole. -/
def fullContainersRefresh (cfg : DockerCfg) (cache : ContainersCache)
    (entries : Except Unit (List PsEntry))
    (inspect : String → Option InspectDetails) : ContainersCache :=
  match entries with
  | .error _ => { cache with initialised := true }
  | .ok es =>
    let acc := es.foldl (buildCacheStep cfg inspect) ([], [])
    { initialised := true, list := acc.1, byId := acc.2 }

/-- At most one container per id in the inventory list. -/
def AtMostOnePerId (cache : ContainersCache) : Prop :=
  (cache.list.map fun c => c.id).Nodup

/-- The consistency invariant between the two cache structures: every listed
container has a non-empty id, ids are pairwise distinct, and the id map binds
exactly the ids of the listed containers to those same container objects. -/
def CacheConsistent (cache : ContainersCache) : Prop :=
  (∀ c ∈ cache.list, c.id ≠ "") ∧
  (cache.list.map fun c => c.id).Nodup ∧
  (cache.byId.map Prod.fst).Nodup ∧
  (∀ p ∈ cache.byId, p.2.id = p.1 ∧ p.2 ∈ cache.list) ∧
  (∀ c ∈ cache.list, (c.id, c) ∈ cache.byId)

instance (cache : ContainersCache) : Decidable (AtMostOnePerId cache) := by
  unfold AtMostOnePerId
  infer_instance

instance (cache : ContainersCache) : Decidable (CacheConsistent cache) := by
  unfold CacheConsistent
  infer_instance

/- ================================================================
   Theorems
   ================================================================ -/

/-- Claim C7, counterexample: for the sample pair where both counters
decrease (idle 100→50, total 200→100) the collector returns 50, not 0, so a
decrease is not treated as 0 via the total-delta-zero guard. -/
theorem collectCpuPercent_decrease_counterexample :
    (⟨50, 100⟩ : CpuSample).idle < (⟨100, 200⟩ : CpuSample).idle ∧
    (⟨50, 100⟩ : CpuSample).total < (⟨100, 200⟩ : CpuSample).total ∧
    collectCpuPercent ⟨100, 200⟩ ⟨50, 100⟩ = 50 ∧ (50 : Rat) ≠ 0 := by
  refine ⟨by norm_num, by norm_num, by norm_num [collectCpuPercent, clampJs], by norm_num⟩

/-- Claim C7 (amended): the returned CPU percentage always lies in `[0,100]`
(so decreasing counters never yield a negative value, via the final clamp),
and a zero total tick delta yields 0 via the divide-by-zero guard; decreasing
counters need not yield 0. -/
theorem collectCpuPercent_bounds (a b : CpuSample) :
    0 ≤ collectCpuPercent a b ∧ collectCpuPercent a b ≤ 100 ∧
      (b.total - a.total = 0 → collectCpuPercent a b = 0) := by
  unfold collectCpuPercent clampJs
  refine ⟨le_min (le_max_right _ _) (by norm_num), min_le_right _ _, ?_⟩
  intro h
  simp [h]

/-- Witness for `collectCpuPercent_bounds` at the static sample pair
(idle 5→7, total 10→10). -/
theorem collectCpuPercent_bounds_witness :
    0 ≤ collectCpuPercent ⟨5, 10⟩ ⟨7, 10⟩ ∧
    collectCpuPercent ⟨5, 10⟩ ⟨7, 10⟩ ≤ 100 ∧
    (⟨7, 10⟩ : CpuSample).total - (⟨5, 10⟩ : CpuSample).total = 0 ∧
    collectCpuPercent ⟨5, 10⟩ ⟨7, 10⟩ = 0 :=
  ⟨(collectCpuPercent_bounds ⟨5, 10⟩ ⟨7, 10⟩).1,
   (collectCpuPercent_bounds ⟨5, 10⟩ ⟨7, 10⟩).2.1,
   by norm_num,
   (collectCpuPercent_bounds ⟨5, 10⟩ ⟨7, 10⟩).2.2 (by norm_num)⟩

/-- Claim C5: a `get()` within the 60 s threshold returns the cached value
unchanged without invoking the poll; after expiry a failed poll returns the
previous cached value unchanged (cache state included) and the error is never
surfaced. -/
theorem getVmsSnapshot_staleness (cache : VmsCache) (now : Int)
    (poll : Except Unit (List Vm)) :
    (now - cache.ts < VM_CACHE_MS →
      getVmsSnapshot cache now poll = (cache, cache.value, false)) ∧
    (¬ now - cache.ts < VM_CACHE_MS → ∀ e : Unit, poll = .error e →
      getVmsSnapshot cache now poll = (cache, cache.value, true)) := by
  constructor
  · intro h
    simp [getVmsSnapshot, h]
  · intro h e he
    subst he
    simp [getVmsSnapshot, h]

/-- Witness for `getVmsSnapshot_staleness`: a fresh read at `now = 1000`
skips the poll, and a failed poll at `now = 70000` returns the cached VM list
unchanged. -/
theorem getVmsSnapshot_staleness_witness :
    ((1000 : Int) - (⟨0, [⟨"win11", "shut off", false⟩]⟩ : VmsCache).ts < VM_CACHE_MS ∧
      getVmsSnapshot ⟨0, [⟨"win11", "shut off", false⟩]⟩ 1000 (.ok []) =
        (⟨0, [⟨"win11", "shut off", false⟩]⟩, [⟨"win11", "shut off", false⟩], false)) ∧
    (¬ (70000 : Int) - (⟨0, [⟨"win11", "shut off", false⟩]⟩ : VmsCache).ts < VM_CACHE_MS ∧
      getVmsSnapshot ⟨0, [⟨"win11", "shut off", false⟩]⟩ 70000 (.error ()) =
        (⟨0, [⟨"win11", "shut off", false⟩]⟩, [⟨"win11", "shut off", false⟩], true)) :=
  ⟨⟨by decide,
    (getVmsSnapshot_staleness ⟨0, [⟨"win11", "shut off", false⟩]⟩ 1000 (.ok [])).1 (by decide)⟩,
   ⟨by decide,
    (getVmsSnapshot_staleness ⟨0, [⟨"win11", "shut off", false⟩]⟩ 70000 (.error ())).2
      (by decide) () rfl⟩⟩

/-- Claim C4, counterexample: a command-execution failure is caught and makes
the collector return null, not the neutral zero-value record the claim
requires. -/
theorem collectArrayUsage_error_counterexample :
    collectArrayUsage (.error ()) = none ∧
      collectArrayUsage (.error ()) ≠ some ⟨0, 0, 0⟩ :=
  ⟨rfl, by decide⟩

/-- Claim C4 (amended): a parse failure (fewer than five fields in the df
line) returns the neutral zero-value record, while a command-execution
failure is caught and returns null; neither failure aborts snapshot
assembly (the collector is total). -/
theorem collectArrayUsage_degrades (stdout : String) :
    ((splitWsJs (jsTrim stdout)).length < 5 →
      collectArrayUsage (.ok stdout) = some ⟨0, 0, 0⟩) ∧
    (∀ e : Unit, collectArrayUsage (.error e) = none) := by
  constructor
  · intro h
    simp [collectArrayUsage, h]
  · intro e
    rfl

/-- Witness for `collectArrayUsage_degrades` on a two-field df output and a
failed command. -/
theorem collectArrayUsage_degrades_witness :
    ((splitWsJs (jsTrim "df: error")).length < 5 ∧
      collectArrayUsage (.ok "df: error") = some ⟨0, 0, 0⟩) ∧
    collectArrayUsage (.error ()) = none :=
  ⟨⟨by decide, (collectArrayUsage_degrades "df: error").1 (by decide)⟩,
   (collectArrayUsage_degrades "").2 ()⟩

/-- Claim C1, counterexample: with a prior sample for the same interface and
zero elapsed time, the ws-server collector does return null rates but
replaces the stored sample `{rxBytes, txBytes, timestamp}` with the fresh
reading (the original stored value is lost), and the preload collector does
not return unknown at all: it computes a rate against an elapsed time clamped
to 1 ms. -/
theorem netRates_zero_dt_counterexample :
    (WsServer.collectNetworkStats (some ⟨"bond0", 1000, 2000, 5000⟩) "bond0"
        1500 2500 5000).2.rxMbps = none ∧
    (WsServer.collectNetworkStats (some ⟨"bond0", 1000, 2000, 5000⟩) "bond0"
        1500 2500 5000).1 ≠ some ⟨"bond0", 1000, 2000, 5000⟩ ∧
    (Preload.collectNetworkStats (some ⟨"bond0", 1000, 2000, 5000⟩) "bond0"
        1500 2500 5000).2.rxRateMbps = some 4 := by
  refine ⟨by norm_num [WsServer.collectNetworkStats], by decide,
    by norm_num [Preload.collectNetworkStats]⟩

/-- Claim C1 (amended): when a prior sample exists for the same interface and
the elapsed time is ≤ 0, the ws-server collector returns null rates but still
overwrites the stored sample with the fresh reading and timestamp, and the
preload collector clamps the elapsed time to 1 ms and returns computed rates;
in both, a subsequent valid sample is computed against the fresh reading, not
the original stored one. -/
theorem netRates_nonpositive_dt (l : NetSample) (iface : String)
    (rx tx now : Int) (hif : l.iface = iface) (hdt : now ≤ l.ts) :
    WsServer.collectNetworkStats (some l) iface rx tx now =
      (some ⟨iface, rx, tx, now⟩, ⟨iface, none, none, none, none⟩) ∧
    Preload.collectNetworkStats (some l) iface rx tx now =
      (some ⟨iface, rx, tx, now⟩,
        ⟨iface, rx, tx,
          some ((((max (rx - l.rxBytes) 0 : Int) : Rat) * 8) / ((1 : Rat) / 1000) / 1000000),
          some ((((max (tx - l.txBytes) 0 : Int) : Rat) * 8) / ((1 : Rat) / 1000) / 1000000)⟩) := by
  have hn : ¬ l.ts < now := not_lt.mpr hdt
  have hmax : max (now - l.ts) 1 = 1 := max_eq_right (by omega)
  constructor
  · simp [WsServer.collectNetworkStats, hif, hn]
  · simp [Preload.collectNetworkStats, hif, hmax]

/-- Witness for `netRates_nonpositive_dt` at a concrete stalled tick. -/
theorem netRates_nonpositive_dt_witness :
    (⟨"eth0", 10, 20, 999⟩ : NetSample).iface = "eth0" ∧ (999 : Int) ≤ 999 ∧
    WsServer.collectNetworkStats (some ⟨"eth0", 10, 20, 999⟩) "eth0" 30 40 999 =
      (some ⟨"eth0", 30, 40, 999⟩, ⟨"eth0", none, none, none, none⟩) ∧
    Preload.collectNetworkStats (some ⟨"eth0", 10, 20, 999⟩) "eth0" 30 40 999 =
      (some ⟨"eth0", 30, 40, 999⟩,
        ⟨"eth0", 30, 40,
          some ((((max ((30 : Int) - 10) 0 : Int) : Rat) * 8) / ((1 : Rat) / 1000) / 1000000),
          some ((((max ((40 : Int) - 20) 0 : Int) : Rat) * 8) / ((1 : Rat) / 1000) / 1000000)⟩) :=
  ⟨rfl, by norm_num,
   (netRates_nonpositive_dt ⟨"eth0", 10, 20, 999⟩ "eth0" 30 40 999 rfl (by norm_num)).1,
   (netRates_nonpositive_dt ⟨"eth0", 10, 20, 999⟩ "eth0" 30 40 999 rfl (by norm_num)).2⟩

/-- Claim C2, counterexample: in the ws-server collector a negative byte
delta is not clamped: with a prior sample of 1000 rx bytes and a fresh
reading of 0 one second later, the returned rx rate is -0.008 Mbps, a
negative value, whereas the claimed clamped formula would give 0. -/
theorem netRate_negative_delta_counterexample :
    (WsServer.collectNetworkStats (some ⟨"eth0", 1000, 0, 0⟩) "eth0" 0 0 1000).2.rxMbps
      = some (-(1/125)) ∧
    (-(1/125) : Rat) < 0 ∧
    ((((max ((0 : Int) - 1000) 0 : Int) : Rat) * 8) / 1 / 1000000) = 0 := by
  refine ⟨by norm_num [WsServer.collectNetworkStats], by norm_num, by norm_num⟩

/-- Claim C2 (amended): for consecutive samples on the same interface with
positive elapsed time, the preload collector returns exactly
`clamp(Δbytes,0) * 8 / Δt / 1e6` Mbps, but the ws-server collector returns
the unclamped `Δbytes * 8 / Δt / 1e6`, so a counter reset produces a negative
rate there. -/
theorem netRate_formulas (l : NetSample) (iface : String) (rx tx now : Int)
    (hif : l.iface = iface) (hdt : l.ts < now) :
    (Preload.collectNetworkStats (some l) iface rx tx now).2.rxRateMbps =
      some ((((max (rx - l.rxBytes) 0 : Int) : Rat) * 8) /
        (((now - l.ts : Int) : Rat) / 1000) / 1000000) ∧
    (Preload.collectNetworkStats (some l) iface rx tx now).2.txRateMbps =
      some ((((max (tx - l.txBytes) 0 : Int) : Rat) * 8) /
        (((now - l.ts : Int) : Rat) / 1000) / 1000000) ∧
    (WsServer.collectNetworkStats (some l) iface rx tx now).2.rxMbps =
      some ((((rx - l.rxBytes : Int) : Rat) * 8) /
        (((now - l.ts : Int) : Rat) / 1000) / 1000000) ∧
    (WsServer.collectNetworkStats (some l) iface rx tx now).2.txMbps =
      some ((((tx - l.txBytes : Int) : Rat) * 8) /
        (((now - l.ts : Int) : Rat) / 1000) / 1000000) := by
  have hmax : max (now - l.ts) 1 = now - l.ts := max_eq_left (by omega)
  have hpos : (0 : Rat) < ((now - l.ts : Int) : Rat) / 1000 := by
    have h0 : (0 : Rat) < ((now - l.ts : Int) : Rat) := by
      exact_mod_cast Int.sub_pos.mpr hdt
    positivity
  refine ⟨?_, ?_, ?_, ?_⟩
  · simp [Preload.collectNetworkStats, hif, hmax, hpos, hdt]
  · simp [Preload.collectNetworkStats, hif, hmax, hpos, hdt]
  · simp [WsServer.collectNetworkStats, hif, hpos, hdt]
  · simp [WsServer.collectNetworkStats, hif, hpos, hdt]

/-- Witness for `netRate_formulas` one second after the stored sample. -/
theorem netRate_formulas_witness :
    (⟨"br0", 500, 900, 0⟩ : NetSample).iface = "br0" ∧ (0 : Int) < 1000 ∧
    (Preload.collectNetworkStats (some ⟨"br0", 500, 900, 0⟩) "br0" 700 800 1000).2.rxRateMbps =
      some ((((max ((700 : Int) - 500) 0 : Int) : Rat) * 8) /
        ((((1000 : Int) - 0 : Int) : Rat) / 1000) / 1000000) ∧
    (WsServer.collectNetworkStats (some ⟨"br0", 500, 900, 0⟩) "br0" 700 800 1000).2.txMbps =
      some (((((800 : Int) - 900 : Int) : Rat) * 8) /
        ((((1000 : Int) - 0 : Int) : Rat) / 1000) / 1000000) :=
  ⟨rfl, by norm_num,
   (netRate_formulas ⟨"br0", 500, 900, 0⟩ "br0" 700 800 1000 rfl (by norm_num)).1,
   (netRate_formulas ⟨"br0", 500, 900, 0⟩ "br0" 700 800 1000 rfl (by norm_num)).2.2.2⟩

/-- Helper: the dispatch taken on a container-typed (or type-equivalent)
event with a truthy id and truthy raw action string. -/
theorem handleDockerEventLine_eval (t id raw : String) (hid : id ≠ "")
    (hraw : raw ≠ "") (ht : t = "" ∨ t = "container") :
    handleDockerEventLine ⟨some t, some id, none, none, some raw, none⟩ =
      (let action := lowerJs raw
       if strIncludes action "create" || strIncludes action "start" ||
          strIncludes action "restart" || strIncludes action "rename" ||
          strIncludes action "unpause" || strIncludes action "pause" ||
          strIncludes action "die" || strIncludes action "stop" then
         EventOutcome.refreshOne id
       else if strIncludes action "destroy" || strIncludes action "remove" then
         EventOutcome.removeId id
       else EventOutcome.ignored) := by
  unfold handleDockerEventLine
  rcases ht with h | h <;> subst h <;> simp [jsTruthy, hid, hraw]

/-- Claim C6: on a well-formed container lifecycle event (non-empty id), each
action of {create, start, restart, rename, unpause, pause, die, stop} takes
the refresh-one path, each of {destroy, remove} takes the removal path, an
action whose lowercase form contains none of those keywords is ignored, an
event whose Type is present, non-empty and different from "container" leaves
the inventory untouched, and in particular "Die" refreshes and "destroy"
removes. -/
theorem handleDockerEventLine_classification (id a : String) (hid : id ≠ "") :
    (a ∈ ["create", "start", "restart", "rename", "unpause", "pause", "die", "stop"] →
      handleDockerEventLine ⟨some "container", some id, none, none, some a, none⟩ =
        .refreshOne id) ∧
    (a ∈ ["destroy", "remove"] →
      handleDockerEventLine ⟨some "container", some id, none, none, some a, none⟩ =
        .removeId id) ∧
    ((∀ k ∈ ["create", "start", "restart", "rename", "unpause", "pause", "die",
        "stop", "destroy", "remove"], strIncludes (lowerJs a) k = false) →
      handleDockerEventLine ⟨some "container", some id, none, none, some a, none⟩ =
        .ignored) ∧
    (∀ t, t ≠ "" → t ≠ "container" →
      handleDockerEventLine ⟨some t, some id, none, none, some a, none⟩ = .ignored) ∧
    handleDockerEventLine ⟨some "container", some id, none, none, some "Die", none⟩ =
      .refreshOne id ∧
    handleDockerEventLine ⟨some "container", some id, none, none, some "destroy", none⟩ =
      .removeId id := by
  refine ⟨?_, ?_, ?_, ?_, ?_, ?_⟩
  · intro ha
    fin_cases ha <;>
      · rw [handleDockerEventLine_eval _ _ _ hid (by decide) (Or.inr rfl)]
        rfl
  · intro ha
    fin_cases ha <;>
      · rw [handleDockerEventLine_eval _ _ _ hid (by decide) (Or.inr rfl)]
        rfl
  · intro h
    by_cases ha : a = ""
    · subst ha
      simp [handleDockerEventLine, jsTruthy, hid]
    · rw [handleDockerEventLine_eval _ _ _ hid ha (Or.inr rfl)]
      simp only [h "create" (by decide), h "start" (by decide), h "restart" (by decide),
        h "rename" (by decide), h "unpause" (by decide), h "pause" (by decide),
        h "die" (by decide), h "stop" (by decide), h "destroy" (by decide),
        h "remove" (by decide)]
      simp
  · intro t ht1 ht2
    have hb : (t != "" && t != "container") = true := by
      simp [bne_iff_ne, ht1, ht2]
    simp [handleDockerEventLine, hb]
  · rw [handleDockerEventLine_eval _ _ _ hid (by decide) (Or.inr rfl)]
    rfl
  · rw [handleDockerEventLine_eval _ _ _ hid (by decide) (Or.inr rfl)]
    rfl

/-- Witness for `handleDockerEventLine_classification` on a concrete id and
the actions "start", "Die", "destroy", "kill" and a non-container type. -/
theorem handleDockerEventLine_classification_witness :
    handleDockerEventLine ⟨some "container", some "abc123", none, none, some "start", none⟩ =
      .refreshOne "abc123" ∧
    handleDockerEventLine ⟨some "container", some "abc123", none, none, some "Die", none⟩ =
      .refreshOne "abc123" ∧
    handleDockerEventLine ⟨some "container", some "abc123", none, none, some "destroy", none⟩ =
      .removeId "abc123" ∧
    handleDockerEventLine ⟨some "container", some "abc123", none, none, some "kill", none⟩ =
      .ignored ∧
    handleDockerEventLine ⟨some "network", some "abc123", none, none, some "start", none⟩ =
      .ignored :=
  ⟨(handleDockerEventLine_classification "abc123" "start" (by decide)).1 (by decide),
   (handleDockerEventLine_classification "abc123" "start" (by decide)).2.2.2.2.1,
   (handleDockerEventLine_classification "abc123" "start" (by decide)).2.2.2.2.2,
   (handleDockerEventLine_classification "abc123" "kill" (by decide)).2.2.1
     (by decide),
   (handleDockerEventLine_classification "abc123" "start" (by decide)).2.2.2.1
     "network" (by decide) (by decide)⟩

/-- Claim C10: an event record without a Type field, or with an empty-string
Type, is not ignored by the type guard: it is handled exactly like a
container-typed event and classified by its action; only a present,
non-empty Type different from "container" is discarded before
classification. -/
theorem handleDockerEventLine_type_guard (evt : DockerEvent) :
    handleDockerEventLine { evt with type' := none } =
      handleDockerEventLine { evt with type' := some "container" } ∧
    handleDockerEventLine { evt with type' := some "" } =
      handleDockerEventLine { evt with type' := some "container" } ∧
    (∀ t, t ≠ "" → t ≠ "container" →
      handleDockerEventLine { evt with type' := some t } = .ignored) := by
  refine ⟨rfl, rfl, ?_⟩
  intro t ht1 ht2
  have hb : (t != "" && t != "container") = true := by
    simp [bne_iff_ne, ht1, ht2]
  simp [handleDockerEventLine, hb]

/-- Witness for `handleDockerEventLine_type_guard`: a typeless "start" event
is processed like a container event (and refreshes), while a volume-typed one
is dropped. -/
theorem handleDockerEventLine_type_guard_witness :
    handleDockerEventLine ⟨none, some "c1", none, none, some "start", none⟩ =
      handleDockerEventLine ⟨some "container", some "c1", none, none, some "start", none⟩ ∧
    handleDockerEventLine ⟨some "volume", some "c1", none, none, some "start", none⟩ =
      .ignored :=
  ⟨(handleDockerEventLine_type_guard ⟨none, some "c1", none, none, some "start", none⟩).1,
   (handleDockerEventLine_type_guard ⟨none, some "c1", none, none, some "start", none⟩).2.2
     "volume" (by decide) (by decide)⟩

/-- Helper: `stripColon` only ever removes a leading character. -/
theorem stripColon_suffix (cs : List Char) : stripColon cs <:+ cs := by
  cases cs with
  | nil => simp [stripColon]
  | cons c rest =>
    by_cases h : c = ':'
    · simp [stripColon, h, List.suffix_cons]
    · simp [stripColon, h]

/-- Helper: a successful tail match contains the literal arrow. -/
theorem matchPortTail_arrow {cs : List Char} {r : String × String × Option String}
    (h : matchPortTail cs = some r) : ['-', '>'] <:+: cs := by
  have hsub : (stripColon cs).dropWhile Char.isDigit <:+ cs :=
    (List.dropWhile_suffix Char.isDigit).trans (stripColon_suffix cs)
  simp only [matchPortTail] at h
  split at h
  · exact absurd h (by simp)
  · split at h
    · rename_i cs2 heq
      have h1 : ['-', '>'] <:+: ('-' :: '>' :: cs2) := ⟨[], cs2, rfl⟩
      have h2 : ('-' :: '>' :: cs2) <:+: cs := by
        rw [← heq]
        exact hsub.isInfix
      exact h1.trans h2
    · exact absurd h (by simp)

/-- Helper: a successful host-group attempt contains the literal arrow. -/
theorem tryHostLens_arrow {cs : List Char} {g : PortGroups} :
    ∀ {L : Nat}, tryHostLens cs L = some g → ['-', '>'] <:+: cs := by
  intro L
  induction L with
  | zero => intro h; exact absurd h (by simp [tryHostLens])
  | succ L ih =>
    intro h
    rw [tryHostLens] at h
    split at h
    · rename_i r heq
      exact (matchPortTail_arrow heq).trans (List.drop_suffix (L + 1) cs).isInfix
    · exact ih h

/-- Helper: any successful match at one position contains the arrow. -/
theorem tryMatchAt_arrow {cs : List Char} {g : PortGroups}
    (h : tryMatchAt cs = some g) : ['-', '>'] <:+: cs := by
  simp only [tryMatchAt] at h
  split at h
  · rename_i heqTHL
    exact tryHostLens_arrow heqTHL
  · split at h
    · rename_i hp cp proto heqMPT
      exact matchPortTail_arrow heqMPT
    · exact absurd h (by simp)

/-- Helper: any leftmost regex match contains the literal arrow. -/
theorem findPortMatch_arrow {cs : List Char} {g : PortGroups}
    (h : findPortMatch cs = some g) : ['-', '>'] <:+: cs := by
  induction cs with
  | nil => exact absurd h (by simp [findPortMatch])
  | cons c rest ih =>
    rw [findPortMatch] at h
    split at h
    · exact tryMatchAt_arrow ‹_›
    · exact (ih h).trans (List.infix_cons (List.infix_refl rest))

/-- Helper: a segment without the arrow cannot match the port regex and is
retained verbatim as a display-only entry. -/
theorem parsePortSegment_unparsable (s : String) (h : ¬ ['-', '>'] <:+: s.data) :
    parsePortSegment s = .plain s := by
  unfold parsePortSegment
  cases hf : findPortMatch s.data with
  | none => rfl
  | some g => exact absurd (findPortMatch_arrow hf) h

/-- Claim C3, counterexample: for the segment "8080->80/tcp" (host ip
omitted) the greedy optional host group of the regex consumes the leading
digits "808", so the parsed hostPort is "0", not the full host-port number
"8080" required by the claim (host ip and protocol still default). -/
theorem parseDockerPorts_hostip_omitted_counterexample :
    parseDockerPorts "8080->80/tcp" =
      [.mapped "0.0.0.0" "0" "80" "tcp" "0->80/tcp"] ∧
    ∀ m ∈ parseDockerPorts "8080->80/tcp", m.hostPortField ≠ some "8080" :=
  ⟨by decide, by decide⟩

/-- Claim C3 (amended): "0.0.0.0:8080->80/tcp" parses to the expected full
mapping and the protocol defaults to tcp; a segment not containing `->`
(such as "80/tcp") cannot match the regex and is retained verbatim as a
display-only entry without a hostPort; but when the host ip is omitted the
greedy optional host group consumes all but the last digit of the host port,
so hostPort keeps only its last digit ("8080->80/tcp" yields "0") and only a
single-digit host port survives intact ("8->80/tcp" yields "8"), host ip
defaulting to 0.0.0.0 in both cases. -/
theorem parseDockerPorts_spec :
    parseDockerPorts "0.0.0.0:8080->80/tcp" =
      [.mapped "0.0.0.0" "8080" "80" "tcp" "8080->80/tcp"] ∧
    parseDockerPorts "0.0.0.0:8080->80" =
      [.mapped "0.0.0.0" "8080" "80" "tcp" "8080->80/tcp"] ∧
    parseDockerPorts "80/tcp" = [.plain "80/tcp"] ∧
    (parseDockerPorts "80/tcp").all (fun m => m.hostPortField = none) = true ∧
    parseDockerPorts "8->80/tcp" = [.mapped "0.0.0.0" "8" "80" "tcp" "8->80/tcp"] ∧
    parseDockerPorts "8080->80/tcp" =
      [.mapped "0.0.0.0" "0" "80" "tcp" "0->80/tcp"] ∧
    (∀ s : String, ¬ ['-', '>'] <:+: s.data → parsePortSegment s = .plain s) :=
  ⟨by decide, by decide, by decide, by decide, by decide, by decide,
   parsePortSegment_unparsable⟩

/-- Witness for `parseDockerPorts_spec`: the segment "443/udp" contains no
arrow and is retained verbatim. -/
theorem parseDockerPorts_spec_witness :
    ¬ ['-', '>'] <:+: ("443/udp".data) ∧
      parsePortSegment "443/udp" = .plain "443/udp" :=
  ⟨by decide, parseDockerPorts_spec.2.2.2.2.2.2 "443/udp" (by decide)⟩

/- ---------------- Lemmas on the cache primitives ---------------- -/

/-- Helper: replace the first list entry with the same id, else append (the
`findIndex`/`set`-or-`push` pattern of `upsertContainerInCache` as a
recursive function, to induct on). -/
def upsertList (c : Container) : List Container → List Container
  | [] => [c]
  | x :: xs => if x.id = c.id then c :: xs else x :: upsertList c xs

/-- Helper: the `findIndex`-and-set pattern equals `upsertList`. -/
theorem upsert_list_eq (c : Container) (l : List Container) :
    (match l.findIdx? (fun x => decide (x.id = c.id)) with
     | some i => l.set i c
     | none => l ++ [c]) = upsertList c l := by
  induction l with
  | nil => rfl
  | cons x xs ih =>
    rw [List.findIdx?_cons]
    by_cases h : x.id = c.id
    · simp [h, upsertList]
    · rw [if_neg (by simp [h]), List.findIdx?_succ]
      simp only [upsertList, if_neg h]
      cases hf : xs.findIdx? (fun y => decide (y.id = c.id)) with
      | some i =>
        rw [hf] at ih
        simp only [Option.map_some', List.set_cons_succ]
        exact congrArg (x :: ·) ih
      | none =>
        rw [hf] at ih
        simp only [Option.map_none', List.cons_append]
        exact congrArg (x :: ·) ih

/-- Helper: `upsertContainerInCache` in terms of `upsertList`/`assocSet`. -/
theorem upsertContainerInCache_eq (cache : ContainersCache) (c : Container) :
    upsertContainerInCache cache c =
      { cache with
        list := upsertList c cache.list,
        byId := if c.id ≠ "" then assocSet c.id c cache.byId else cache.byId } := by
  simp only [upsertContainerInCache]
  rw [upsert_list_eq]

/-- Helper: membership after an upsert. -/
theorem mem_upsertList {x c : Container} {l : List Container}
    (h : x ∈ upsertList c l) : x = c ∨ x ∈ l := by
  induction l with
  | nil => simpa [upsertList] using h
  | cons y ys ih =>
    by_cases hy : y.id = c.id
    · simp only [upsertList, if_pos hy] at h
      rcases List.mem_cons.mp h with h | h
      · exact Or.inl h
      · exact Or.inr (List.mem_cons_of_mem y h)
    · simp only [upsertList, if_neg hy] at h
      rcases List.mem_cons.mp h with h | h
      · exact Or.inr (h ▸ List.mem_cons_self y ys)
      · rcases ih h with h | h
        · exact Or.inl h
        · exact Or.inr (List.mem_cons_of_mem y h)

/-- Helper: the upserted container is present after the upsert. -/
theorem self_mem_upsertList (c : Container) (l : List Container) :
    c ∈ upsertList c l := by
  induction l with
  | nil => simp [upsertList]
  | cons y ys ih =>
    by_cases hy : y.id = c.id
    · simp [upsertList, hy]
    · simp [upsertList, hy, ih]

/-- Helper: entries with a different id survive an upsert. -/
theorem mem_upsertList_of_ne {x : Container} (c : Container) {l : List Container}
    (hx : x ∈ l) (hne : x.id ≠ c.id) : x ∈ upsertList c l := by
  induction l with
  | nil => cases hx
  | cons y ys ih =>
    by_cases hy : y.id = c.id
    · simp only [upsertList, if_pos hy]
      rcases List.mem_cons.mp hx with h | h
      · exact absurd (h ▸ hne) (by simp [hy])
      · exact List.mem_cons_of_mem c h
    · simp only [upsertList, if_neg hy]
      rcases List.mem_cons.mp hx with h | h
      · exact List.mem_cons.mpr (Or.inl h)
      · exact List.mem_cons_of_mem y (ih h)

/-- Helper: the ids after an upsert are the old ids, extended by the new id
exactly when it was absent. -/
theorem upsertList_map_id (c : Container) (l : List Container) :
    (upsertList c l).map (fun x => x.id) =
      (if c.id ∈ l.map (fun x => x.id) then l.map (fun x => x.id)
       else l.map (fun x => x.id) ++ [c.id]) := by
  induction l with
  | nil => simp [upsertList]
  | cons x xs ih =>
    by_cases h : x.id = c.id
    · simp [upsertList, h]
    · have h' : ¬ c.id = x.id := fun hc => h hc.symm
      by_cases h2 : c.id ∈ xs.map (fun x => x.id) <;>
        simp [upsertList, h, h', h2, ih]

/-- Helper: upserting the same container twice changes nothing the second
time. -/
theorem upsertList_idem (c : Container) (l : List Container) :
    upsertList c (upsertList c l) = upsertList c l := by
  induction l with
  | nil => simp [upsertList]
  | cons x xs ih =>
    by_cases h : x.id = c.id
    · simp [upsertList, h]
    · simp [upsertList, h, ih]

/-- Helper: under distinct ids, the entries carrying the upserted id after an
upsert are exactly the upserted container. -/
theorem upsertList_filter_id (c : Container) (l : List Container)
    (h : (l.map (fun x => x.id)).Nodup) :
    (upsertList c l).filter (fun x => decide (x.id = c.id)) = [c] := by
  induction l with
  | nil => simp [upsertList]
  | cons x xs ih =>
    simp only [List.map_cons, List.nodup_cons] at h
    by_cases hx : x.id = c.id
    · have hnone : xs.filter (fun y => decide (y.id = c.id)) = [] := by
        refine List.filter_eq_nil_iff.mpr ?_
        intro y hy
        simp only [decide_eq_true_eq]
        intro hc
        have hmem : y.id ∈ xs.map (fun z => z.id) :=
          List.mem_map_of_mem (fun z => z.id) hy
        rw [hc, ← hx] at hmem
        exact h.1 hmem
      simp [upsertList, hx, hnone]
    · simp only [upsertList, if_neg hx, List.filter_cons, decide_eq_true_eq]
      exact ih h.2

/-- Helper: membership after an `assocSet`. -/
theorem mem_assocSet {α : Type} {p : String × α} {k : String} {v : α}
    {m : List (String × α)} (hk : (m.map Prod.fst).Nodup)
    (h : p ∈ assocSet k v m) : p = (k, v) ∨ (p ∈ m ∧ p.1 ≠ k) := by
  induction m with
  | nil => simpa [assocSet] using h
  | cons q rest ih =>
    simp only [List.map_cons, List.nodup_cons] at hk
    by_cases hq : q.1 = k
    · rw [show q = (q.1, q.2) from rfl] at h
      simp only [assocSet, if_pos hq] at h
      rcases List.mem_cons.mp h with h | h
      · exact Or.inl h
      · refine Or.inr ⟨List.mem_cons_of_mem q h, ?_⟩
        intro hc
        exact hk.1 (hq ▸ hc ▸ List.mem_map_of_mem Prod.fst h)
    · rw [show q = (q.1, q.2) from rfl] at h
      simp only [assocSet, if_neg hq] at h
      rcases List.mem_cons.mp h with h | h
      · exact Or.inr ⟨h ▸ List.mem_cons_self q rest, by rw [h]; exact hq⟩
      · rcases ih hk.2 h with h | h
        · exact Or.inl h
        · exact Or.inr ⟨List.mem_cons_of_mem q h.1, h.2⟩

/-- Helper: the new binding is present after an `assocSet`. -/
theorem self_mem_assocSet {α : Type} (k : String) (v : α) (m : List (String × α)) :
    (k, v) ∈ assocSet k v m := by
  induction m with
  | nil => simp [assocSet]
  | cons q rest ih =>
    by_cases hq : q.1 = k
    · rw [show q = (q.1, q.2) from rfl]
      simp [assocSet, hq]
    · rw [show q = (q.1, q.2) from rfl]
      simp only [assocSet, if_neg hq]
      exact List.mem_cons_of_mem _ ih

/-- Helper: bindings with other keys survive an `assocSet`. -/
theorem mem_assocSet_of_ne {α : Type} {p : String × α} (k : String) (v : α)
    {m : List (String × α)} (hp : p ∈ m) (hne : p.1 ≠ k) :
    p ∈ assocSet k v m := by
  induction m with
  | nil => cases hp
  | cons q rest ih =>
    by_cases hq : q.1 = k
    · rw [show q = (q.1, q.2) from rfl]
      simp only [assocSet, if_pos hq]
      rcases List.mem_cons.mp hp with h | h
      · exact absurd (h ▸ hne) (by simp [hq])
      · exact List.mem_cons_of_mem _ h
    · rw [show q = (q.1, q.2) from rfl]
      simp only [assocSet, if_neg hq]
      rcases List.mem_cons.mp hp with h | h
      · exact List.mem_cons.mpr (Or.inl (by rw [h]))
      · exact List.mem_cons_of_mem _ (ih h)

/-- Helper: the keys after an `assocSet` are the old keys, extended by the
new key exactly when it was absent. -/
theorem assocSet_map_fst {α : Type} (k : String) (v : α) (m : List (String × α)) :
    (assocSet k v m).map Prod.fst =
      (if k ∈ m.map Prod.fst then m.map Prod.fst else m.map Prod.fst ++ [k]) := by
  induction m with
  | nil => simp [assocSet]
  | cons q rest ih =>
    by_cases hq : q.1 = k
    · rw [show q = (q.1, q.2) from rfl]
      simp [assocSet, hq]
    · rw [show q = (q.1, q.2) from rfl]
      have hq' : ¬ k = q.1 := fun hc => hq hc.symm
      by_cases h2 : k ∈ rest.map Prod.fst <;>
        simp [assocSet, hq, hq', h2, ih]

/-- Helper: setting an absent key appends the binding. -/
theorem assocSet_eq_append {α : Type} (k : String) (v : α)
    {m : List (String × α)} (hk : k ∉ m.map Prod.fst) :
    assocSet k v m = m ++ [(k, v)] := by
  induction m with
  | nil => rfl
  | cons q rest ih =>
    simp only [List.map_cons, List.mem_cons] at hk
    push_neg at hk
    have hq : ¬ q.1 = k := fun hc => hk.1 hc.symm
    rw [show q = (q.1, q.2) from rfl]
    simp only [assocSet, if_neg hq, List.cons_append]
    rw [ih hk.2]

/-- Helper: `assocSet` twice with the same binding equals once. -/
theorem assocSet_idem {α : Type} (k : String) (v : α) (m : List (String × α)) :
    assocSet k v (assocSet k v m) = assocSet k v m := by
  induction m with
  | nil => simp [assocSet]
  | cons q rest ih =>
    by_cases hq : q.1 = k
    · rw [show q = (q.1, q.2) from rfl]
      simp [assocSet, hq]
    · rw [show q = (q.1, q.2) from rfl]
      simp [assocSet, hq, ih]

/-- Helper: under distinct ids, a member after an upsert is the new container
or an old one with a different id. -/
theorem mem_upsertList_nodup {x c : Container} {l : List Container}
    (hnd : (l.map fun z => z.id).Nodup) (h : x ∈ upsertList c l) :
    x = c ∨ (x ∈ l ∧ x.id ≠ c.id) := by
  induction l with
  | nil =>
    left
    simpa [upsertList] using h
  | cons y ys ih =>
    simp only [List.map_cons, List.nodup_cons] at hnd
    by_cases hy : y.id = c.id
    · simp only [upsertList, if_pos hy] at h
      rcases List.mem_cons.mp h with h | h
      · exact Or.inl h
      · right
        refine ⟨List.mem_cons_of_mem _ h, ?_⟩
        intro hc
        apply hnd.1
        rw [hy, ← hc]
        exact List.mem_map_of_mem (fun z => z.id) h
    · simp only [upsertList, if_neg hy] at h
      rcases List.mem_cons.mp h with h | h
      · right
        exact ⟨List.mem_cons.mpr (Or.inl h), h ▸ hy⟩
      · rcases ih hnd.2 h with h | h
        · exact Or.inl h
        · exact Or.inr ⟨List.mem_cons_of_mem _ h.1, h.2⟩

/-- Helper: an upsert preserves distinctness of the listed ids. -/
theorem upsertList_nodup (c : Container) (l : List Container)
    (h : (l.map fun x => x.id).Nodup) :
    ((upsertList c l).map fun x => x.id).Nodup := by
  rw [upsertList_map_id]
  by_cases hm : c.id ∈ l.map fun x => x.id
  · simpa [hm] using h
  · simp [hm, List.nodup_append, h]

/-- Helper: the upsert of the code preserves the full consistency invariant,
provided the upserted container has a truthy id (as every container built by
`buildContainerFromPsAndInspect` does). -/
theorem upsert_consistent (cache : ContainersCache) (c : Container)
    (hcon : CacheConsistent cache) (hc : c.id ≠ "") :
    CacheConsistent (upsertContainerInCache cache c) := by
  obtain ⟨h1, h2, h3, h4, h5⟩ := hcon
  rw [upsertContainerInCache_eq]
  rw [if_pos hc]
  refine ⟨?_, ?_, ?_, ?_, ?_⟩
  · intro x hx
    rcases mem_upsertList hx with h | h
    · exact h ▸ hc
    · exact h1 x h
  · exact upsertList_nodup c cache.list h2
  · rw [assocSet_map_fst]
    by_cases hm : c.id ∈ cache.byId.map Prod.fst
    · simpa [hm] using h3
    · simp [hm, List.nodup_append, h3]
  · intro p hp
    rcases mem_assocSet h3 hp with h | h
    · subst h
      exact ⟨rfl, self_mem_upsertList c cache.list⟩
    · obtain ⟨hpid, hpmem⟩ := h4 p h.1
      refine ⟨hpid, mem_upsertList_of_ne c hpmem ?_⟩
      rw [hpid]
      exact h.2
  · intro x hx
    rcases mem_upsertList_nodup h2 hx with h | h
    · subst h
      exact self_mem_assocSet x.id x cache.byId
    · exact mem_assocSet_of_ne c.id c (h5 x h.1) h.2

/-- Helper: removal preserves the full consistency invariant. -/
theorem remove_consistent (cache : ContainersCache) (id : String)
    (hcon : CacheConsistent cache) :
    CacheConsistent (removeContainerFromCache cache id) := by
  obtain ⟨h1, h2, h3, h4, h5⟩ := hcon
  unfold removeContainerFromCache
  by_cases hid : id = ""
  · rw [if_pos hid]
    exact ⟨h1, h2, h3, h4, h5⟩
  · rw [if_neg hid]
    refine ⟨?_, ?_, ?_, ?_, ?_⟩
    · intro x hx
      exact h1 x (List.mem_of_mem_filter hx)
    · exact h2.sublist ((List.filter_sublist cache.list).map fun x => x.id)
    · exact h3.sublist ((List.filter_sublist cache.byId).map Prod.fst)
    · intro p hp
      have hmem := List.mem_of_mem_filter hp
      have hkey : p.1 ≠ id := by simpa using List.of_mem_filter hp
      obtain ⟨hpid, hpmem⟩ := h4 p hmem
      refine ⟨hpid, List.mem_filter.mpr ⟨hpmem, ?_⟩⟩
      simp [hpid, hkey]
    · intro x hx
      have hmem := List.mem_of_mem_filter hx
      have hne : x.id ≠ id := by simpa using List.of_mem_filter hx
      exact List.mem_filter.mpr ⟨h5 x hmem, by simpa using hne⟩

/-- Helper: a built container carries the entry's (truthy) id. -/
theorem buildContainer_some_id {cfg : DockerCfg} {e : PsEntry}
    {d : Option InspectDetails} {obj : Container}
    (h : buildContainerFromPsAndInspect cfg e d = some obj) :
    obj.id = e.ID ∧ e.ID ≠ "" := by
  unfold buildContainerFromPsAndInspect at h
  by_cases hid : e.ID = ""
  · simp [hid] at h
  · rw [if_neg hid] at h
    simp only [Option.some.injEq] at h
    subst h
    exact ⟨rfl, hid⟩

/-- Helper: the builder rejects exactly the entries with a falsy id. -/
theorem buildContainer_none {cfg : DockerCfg} {e : PsEntry}
    {d : Option InspectDetails} :
    buildContainerFromPsAndInspect cfg e d = none ↔ e.ID = "" := by
  unfold buildContainerFromPsAndInspect
  by_cases hid : e.ID = "" <;> simp [hid]

/-- Helper: the container-building fold of `fullContainersRefresh` keeps the
list and map consistent, provided the non-empty ids of the remaining entries
are pairwise distinct and absent from the accumulator. -/
theorem buildCache_foldl_inv (cfg : DockerCfg) (inspect : String → Option InspectDetails) :
    ∀ (entries : List PsEntry) (accL : List Container) (accM : List (String × Container)),
      (∀ x ∈ accL, x.id ≠ "") →
      ((accL.map fun x => x.id).Nodup) →
      ((accM.map Prod.fst).Nodup) →
      (∀ p ∈ accM, p.2.id = p.1 ∧ p.2 ∈ accL) →
      (∀ x ∈ accL, (x.id, x) ∈ accM) →
      (((entries.map fun e => e.ID).filter fun i => decide (i ≠ "")).Nodup) →
      (∀ e ∈ entries, e.ID ≠ "" → e.ID ∉ accL.map fun x => x.id) →
      (∀ x ∈ (entries.foldl (buildCacheStep cfg inspect) (accL, accM)).1, x.id ≠ "") ∧
      (((entries.foldl (buildCacheStep cfg inspect) (accL, accM)).1.map fun x => x.id).Nodup) ∧
      (((entries.foldl (buildCacheStep cfg inspect) (accL, accM)).2.map Prod.fst).Nodup) ∧
      (∀ p ∈ (entries.foldl (buildCacheStep cfg inspect) (accL, accM)).2,
        p.2.id = p.1 ∧ p.2 ∈ (entries.foldl (buildCacheStep cfg inspect) (accL, accM)).1) ∧
      (∀ x ∈ (entries.foldl (buildCacheStep cfg inspect) (accL, accM)).1,
        (x.id, x) ∈ (entries.foldl (buildCacheStep cfg inspect) (accL, accM)).2) := by
  intro entries
  induction entries with
  | nil =>
    intro accL accM h1 h2 h3 h4 h5 _ _
    exact ⟨h1, h2, h3, h4, h5⟩
  | cons e rest ih =>
    intro accL accM h1 h2 h3 h4 h5 h6 h7
    rw [List.foldl_cons]
    cases hb : buildContainerFromPsAndInspect cfg e (inspect e.ID) with
    | none =>
      have hid : e.ID = "" := buildContainer_none.mp hb
      have hstep : buildCacheStep cfg inspect (accL, accM) e = (accL, accM) := by
        simp [buildCacheStep, hb]
      rw [hstep]
      refine ih accL accM h1 h2 h3 h4 h5 ?_ ?_
      · simpa [hid] using h6
      · intro e' he'
        exact h7 e' (List.mem_cons_of_mem e he')
    | some obj =>
      obtain ⟨hobjid, hIDne⟩ := buildContainer_some_id hb
      have hobjne : obj.id ≠ "" := hobjid ▸ hIDne
      have hstep : buildCacheStep cfg inspect (accL, accM) e =
          (accL ++ [obj], assocSet obj.id obj accM) := by
        simp [buildCacheStep, hb, hobjne]
      have hnotinL : obj.id ∉ accL.map fun x => x.id := by
        rw [hobjid]
        exact h7 e (List.mem_cons_self e rest) hIDne
      have hnotinM : obj.id ∉ accM.map Prod.fst := by
        intro hc
        obtain ⟨p, hp, hp1⟩ := List.mem_map.mp hc
        obtain ⟨hpid, hpmem⟩ := h4 p hp
        apply hnotinL
        rw [← hp1, ← hpid]
        exact List.mem_map_of_mem (fun x => x.id) hpmem
      have hMeq : assocSet obj.id obj accM = accM ++ [(obj.id, obj)] :=
        assocSet_eq_append _ _ hnotinM
      rw [hstep, hMeq]
      have h6' : (((e.ID :: rest.map fun e => e.ID).filter fun i => decide (i ≠ ""))).Nodup := by
        simpa using h6
      have h6e : ((e.ID :: rest.map fun e => e.ID).filter fun i => decide (i ≠ "")) =
          e.ID :: ((rest.map fun e => e.ID).filter fun i => decide (i ≠ "")) := by
        simp [List.filter_cons, hIDne]
      rw [h6e] at h6'
      have hrestNodup := (List.nodup_cons.mp h6').2
      have hIDnotrest := (List.nodup_cons.mp h6').1
      refine ih (accL ++ [obj]) (accM ++ [(obj.id, obj)]) ?_ ?_ ?_ ?_ ?_ ?_ ?_
      · intro x hx
        rcases List.mem_append.mp hx with h | h
        · exact h1 x h
        · rw [List.mem_singleton.mp h]
          exact hobjne
      · simp only [List.map_append, List.map_cons, List.map_nil]
        simp [List.nodup_append, h2, hnotinL]
      · simp only [List.map_append, List.map_cons, List.map_nil]
        simp [List.nodup_append, h3, hnotinM]
      · intro p hp
        rcases List.mem_append.mp hp with h | h
        · obtain ⟨hpid, hpmem⟩ := h4 p h
          exact ⟨hpid, List.mem_append_left _ hpmem⟩
        · rw [List.mem_singleton.mp h]
          exact ⟨rfl, List.mem_append_right _ (List.mem_singleton.mpr rfl)⟩
      · intro x hx
        rcases List.mem_append.mp hx with h | h
        · exact List.mem_append_left _ (h5 x h)
        · rw [List.mem_singleton.mp h]
          exact List.mem_append_right _ (List.mem_singleton.mpr rfl)
      · exact hrestNodup
      · intro e' he' hne'
        have hmemf : e'.ID ∈ ((rest.map fun e => e.ID).filter fun i => decide (i ≠ "")) := by
          refine List.mem_filter.mpr ⟨List.mem_map_of_mem (fun e => e.ID) he', by simpa using hne'⟩
        have hne2 : e'.ID ≠ e.ID := by
          intro hc
          exact hIDnotrest (hc ▸ hmemf)
        simp only [List.map_append, List.map_cons, List.map_nil, List.mem_append,
          List.mem_singleton]
        rintro (h | h)
        · exact h7 e' (List.mem_cons_of_mem e he') hne' h
        · exact hne2 (hobjid ▸ h)

/-- Helper: a full refresh from a duplicate-free listing (no two non-empty
ids equal) yields a consistent cache. -/
theorem fullRefresh_ok_consistent (cfg : DockerCfg) (cache : ContainersCache)
    (entries : List PsEntry) (inspect : String → Option InspectDetails)
    (h : ((entries.map fun e => e.ID).filter fun i => decide (i ≠ "")).Nodup) :
    CacheConsistent (fullContainersRefresh cfg cache (.ok entries) inspect) := by
  have hinv := buildCache_foldl_inv cfg inspect entries [] []
    (by simp) (by simp) (by simp) (by simp) (by simp) h (by simp)
  exact ⟨hinv.1, hinv.2.1, hinv.2.2.1, hinv.2.2.2.1, hinv.2.2.2.2⟩

/-- Claim C8, counterexample: replaying a bulk listing that carries the same
container id on two lines makes the full refresh put two entries with that id
into the inventory list, so not every inventory operation preserves the
at-most-one-container-per-id invariant. -/
theorem atMostOne_fullRefresh_counterexample :
    AtMostOnePerId ⟨false, [], []⟩ ∧
    ¬ AtMostOnePerId
        (fullContainersRefresh ⟨none, fun _ => true⟩ ⟨false, [], []⟩
          (.ok [⟨"id7", "alpha", "img:a", "Up 3 days", "", ""⟩,
                ⟨"id7", "beta", "img:b", "Exited (0)", "", ""⟩])
          fun _ => none) :=
  ⟨by decide, by decide⟩

/-- Claim C8 (amended): upserting the same container twice is idempotent, and
on an inventory with at most one entry per id it leaves exactly one list
entry carrying that id (the upserted object, with identical fields after the
first and the second upsert); upsert and remove always preserve the
at-most-one-per-id invariant; the full refresh guarantees it only when the
bulk listing contains no duplicate non-empty ids. -/
theorem upsert_idempotent_atMostOne (cache : ContainersCache) (c : Container)
    (id : String) (cfg : DockerCfg) (entries : List PsEntry)
    (inspect : String → Option InspectDetails) :
    upsertContainerInCache (upsertContainerInCache cache c) c =
      upsertContainerInCache cache c ∧
    (AtMostOnePerId cache →
      ((upsertContainerInCache cache c).list.filter fun x => decide (x.id = c.id)) = [c]) ∧
    (AtMostOnePerId cache → AtMostOnePerId (upsertContainerInCache cache c)) ∧
    (AtMostOnePerId cache → AtMostOnePerId (removeContainerFromCache cache id)) ∧
    (((entries.map fun e => e.ID).filter fun i => decide (i ≠ "")).Nodup →
      AtMostOnePerId (fullContainersRefresh cfg cache (.ok entries) inspect)) := by
  refine ⟨?_, ?_, ?_, ?_, ?_⟩
  · rw [upsertContainerInCache_eq cache c, upsertContainerInCache_eq]
    by_cases hc : c.id = ""
    · simp [hc, upsertList_idem]
    · simp [hc, upsertList_idem, assocSet_idem]
  · intro hA
    rw [upsertContainerInCache_eq]
    exact upsertList_filter_id c cache.list hA
  · intro hA
    unfold AtMostOnePerId at hA ⊢
    rw [upsertContainerInCache_eq]
    exact upsertList_nodup c cache.list hA
  · intro hA
    unfold AtMostOnePerId at hA ⊢
    unfold removeContainerFromCache
    by_cases hid : id = ""
    · rw [if_pos hid]
      exact hA
    · rw [if_neg hid]
      exact hA.sublist ((List.filter_sublist cache.list).map fun x => x.id)
  · intro h
    exact (fullRefresh_ok_consistent cfg cache entries inspect h).2.1

/-- Witness for `upsert_idempotent_atMostOne` on a one-container inventory,
re-upserting an updated object with the same id. -/
theorem upsert_idempotent_atMostOne_witness :
    AtMostOnePerId (⟨true, [⟨"a1", "", "", "", false, [], none, none, none⟩],
        [("a1", ⟨"a1", "", "", "", false, [], none, none, none⟩)]⟩ : ContainersCache) ∧
    ((([⟨"e1", "", "", "", "", ""⟩] : List PsEntry).map fun e => e.ID).filter
      fun i => decide (i ≠ "")).Nodup ∧
    upsertContainerInCache
        (upsertContainerInCache
          ⟨true, [⟨"a1", "", "", "", false, [], none, none, none⟩],
            [("a1", ⟨"a1", "", "", "", false, [], none, none, none⟩)]⟩
          ⟨"a1", "x", "", "", false, [], none, none, none⟩)
        ⟨"a1", "x", "", "", false, [], none, none, none⟩ =
      upsertContainerInCache
        ⟨true, [⟨"a1", "", "", "", false, [], none, none, none⟩],
          [("a1", ⟨"a1", "", "", "", false, [], none, none, none⟩)]⟩
        ⟨"a1", "x", "", "", false, [], none, none, none⟩ ∧
    ((upsertContainerInCache
        ⟨true, [⟨"a1", "", "", "", false, [], none, none, none⟩],
          [("a1", ⟨"a1", "", "", "", false, [], none, none, none⟩)]⟩
        ⟨"a1", "x", "", "", false, [], none, none, none⟩).list.filter
      fun x => decide (x.id = (⟨"a1", "x", "", "", false, [], none, none, none⟩ : Container).id)) =
      [⟨"a1", "x", "", "", false, [], none, none, none⟩] ∧
    AtMostOnePerId (upsertContainerInCache
        ⟨true, [⟨"a1", "", "", "", false, [], none, none, none⟩],
          [("a1", ⟨"a1", "", "", "", false, [], none, none, none⟩)]⟩
        ⟨"a1", "x", "", "", false, [], none, none, none⟩) ∧
    AtMostOnePerId (removeContainerFromCache
        ⟨true, [⟨"a1", "", "", "", false, [], none, none, none⟩],
          [("a1", ⟨"a1", "", "", "", false, [], none, none, none⟩)]⟩ "a1") ∧
    AtMostOnePerId (fullContainersRefresh ⟨none, fun _ => true⟩
        ⟨true, [⟨"a1", "", "", "", false, [], none, none, none⟩],
          [("a1", ⟨"a1", "", "", "", false, [], none, none, none⟩)]⟩
        (.ok [⟨"e1", "", "", "", "", ""⟩]) fun _ => none) :=
  ⟨by decide, by decide,
   (upsert_idempotent_atMostOne _ ⟨"a1", "x", "", "", false, [], none, none, none⟩
     "a1" ⟨none, fun _ => true⟩ [⟨"e1", "", "", "", "", ""⟩] (fun _ => none)).1,
   (upsert_idempotent_atMostOne _ ⟨"a1", "x", "", "", false, [], none, none, none⟩
     "a1" ⟨none, fun _ => true⟩ [⟨"e1", "", "", "", "", ""⟩] (fun _ => none)).2.1 (by decide),
   (upsert_idempotent_atMostOne _ ⟨"a1", "x", "", "", false, [], none, none, none⟩
     "a1" ⟨none, fun _ => true⟩ [⟨"e1", "", "", "", "", ""⟩] (fun _ => none)).2.2.1 (by decide),
   (upsert_idempotent_atMostOne _ ⟨"a1", "x", "", "", false, [], none, none, none⟩
     "a1" ⟨none, fun _ => true⟩ [⟨"e1", "", "", "", "", ""⟩] (fun _ => none)).2.2.2.1 (by decide),
   (upsert_idempotent_atMostOne _ ⟨"a1", "x", "", "", false, [], none, none, none⟩
     "a1" ⟨none, fun _ => true⟩ [⟨"e1", "", "", "", "", ""⟩] (fun _ => none)).2.2.2.2 (by decide)⟩

/-- Claim C9, counterexample: a bulk listing with two lines carrying the same
container id makes the full refresh build a list with a duplicated id whose
id map binds that id only to the second object, so the refresh does not
preserve the consistency invariant between the two structures. -/
theorem fullRefresh_duplicate_inconsistent_counterexample :
    CacheConsistent ⟨false, [], []⟩ ∧
    ¬ CacheConsistent
        (fullContainersRefresh ⟨none, fun _ => true⟩ ⟨false, [], []⟩
          (.ok [⟨"dupA", "alpha", "img:a", "Up 3 days", "", ""⟩,
                ⟨"dupA", "beta", "img:b", "Exited (0)", "", ""⟩])
          fun _ => none) :=
  ⟨by decide, by decide⟩

/-- Claim C9 (amended): the upsert (for the truthy-id containers the builder
produces) and the removal preserve the consistency invariant between the list
and the id map, and so does the error branch of the full refresh (which keeps
the old structures); the rebuilding branch of the full refresh establishes
the invariant exactly under the assumption that the bulk listing contains no
duplicate non-empty ids. -/
theorem containersCache_consistency (cache : ContainersCache) (c : Container)
    (id : String) (cfg : DockerCfg) (entries : List PsEntry)
    (inspect : String → Option InspectDetails) (e : Unit) :
    (CacheConsistent cache → c.id ≠ "" →
      CacheConsistent (upsertContainerInCache cache c)) ∧
    (CacheConsistent cache → CacheConsistent (removeContainerFromCache cache id)) ∧
    (CacheConsistent cache →
      CacheConsistent (fullContainersRefresh cfg cache (.error e) inspect)) ∧
    (((entries.map fun e => e.ID).filter fun i => decide (i ≠ "")).Nodup →
      CacheConsistent (fullContainersRefresh cfg cache (.ok entries) inspect)) :=
  ⟨fun hcon hc => upsert_consistent cache c hcon hc,
   fun hcon => remove_consistent cache id hcon,
   fun hcon => hcon,
   fun h => fullRefresh_ok_consistent cfg cache entries inspect h⟩

/-- Witness for `containersCache_consistency` on a one-container inventory. -/
theorem containersCache_consistency_witness :
    CacheConsistent (⟨true, [⟨"b2", "", "", "", false, [], none, none, none⟩],
        [("b2", ⟨"b2", "", "", "", false, [], none, none, none⟩)]⟩ : ContainersCache) ∧
    (⟨"b2", "y", "", "", false, [], none, none, none⟩ : Container).id ≠ "" ∧
    CacheConsistent (upsertContainerInCache
        ⟨true, [⟨"b2", "", "", "", false, [], none, none, none⟩],
          [("b2", ⟨"b2", "", "", "", false, [], none, none, none⟩)]⟩
        ⟨"b2", "y", "", "", false, [], none, none, none⟩) ∧
    CacheConsistent (removeContainerFromCache
        ⟨true, [⟨"b2", "", "", "", false, [], none, none, none⟩],
          [("b2", ⟨"b2", "", "", "", false, [], none, none, none⟩)]⟩ "b2") ∧
    CacheConsistent (fullContainersRefresh ⟨none, fun _ => true⟩
        ⟨true, [⟨"b2", "", "", "", false, [], none, none, none⟩],
          [("b2", ⟨"b2", "", "", "", false, [], none, none, none⟩)]⟩
        (.error ()) fun _ => none) ∧
    CacheConsistent (fullContainersRefresh ⟨none, fun _ => true⟩
        ⟨true, [⟨"b2", "", "", "", false, [], none, none, none⟩],
          [("b2", ⟨"b2", "", "", "", false, [], none, none, none⟩)]⟩
        (.ok [⟨"e9", "", "", "", "", ""⟩]) fun _ => none) :=
  ⟨by decide, by decide,
   (containersCache_consistency _ ⟨"b2", "y", "", "", false, [], none, none, none⟩
     "b2" ⟨none, fun _ => true⟩ [⟨"e9", "", "", "", "", ""⟩] (fun _ => none) ()).1
     (by decide) (by decide),
   (containersCache_consistency _ ⟨"b2", "y", "", "", false, [], none, none, none⟩
     "b2" ⟨none, fun _ => true⟩ [⟨"e9", "", "", "", "", ""⟩] (fun _ => none) ()).2.1
     (by decide),
   (containersCache_consistency _ ⟨"b2", "y", "", "", false, [], none, none, none⟩
     "b2" ⟨none, fun _ => true⟩ [⟨"e9", "", "", "", "", ""⟩] (fun _ => none) ()).2.2.1
     (by decide),
   (containersCache_consistency _ ⟨"b2", "y", "", "", false, [], none, none, none⟩
     "b2" ⟨none, fun _ => true⟩ [⟨"e9", "", "", "", "", ""⟩] (fun _ => none) ()).2.2.2
     (by decide)⟩
